import Mathlib

/-!
Verification development for the autokey phrase tokenizer and parser
(src/lib/autokey/tokenizer.py and src/lib/autokey/parser.py).

Strings are modelled as `List Char`; the lazy token generator is modelled as
the list of tokens it will produce; Python exceptions are modelled with
`Except`.  The definitions below are direct transcriptions of the Python
source, including its observable faults (the `except GeneratorExit` clauses
that fail to catch `StopIteration`, `deque.extendleft` reversing the pushed
tokens, the `for` loop in `_collect_string_parts` that mutates the deque it
is iterating — a `RuntimeError` in CPython — and `_try_collect_macro`
falling off its end and returning `None`).
-/

deriving instance DecidableEq for Except

namespace Autokey

/-- Token, after `Token = typing.NamedTuple("Token", [("typ", str), ("value", str),
("line", int), ("column", int)])` in tokenizer.py.  The matched text is kept
as a list of characters. -/
structure Token where
  typ : String
  value : List Char
  line : Nat
  column : Nat
deriving DecidableEq, Repr

/-- The characters excluded from the OTHER token class
`[^<>= \\"\n]+` in `PhraseTokenizer.__init__` (tokenizer.py line 109). -/
def isSpecialChar (c : Char) : Bool :=
  c == '<' || c == '>' || c == '=' || c == ' ' || c == '\\' || c == '"' || c == '\n'

/-- The MACRO alternative `"|".join(PhraseTokenizer.KEYWORDS)` (tokenizer.py
line 103): the first registered keyword, in alternation order, that matches at
the current position.  Keywords are macro class `ID`s and hence nonempty
strings; the `!k.data.isEmpty` guard records that no zero-width alternative
occurs. -/
def findKeyword (keywords : List String) (s : List Char) : Option String :=
  keywords.find? (fun k => !k.data.isEmpty && k.data.isPrefixOf s)

/-- A single regular-expression match: the winning group name, the matched
text, and the remaining input. -/
structure RegexMatch where
  kind : String
  value : List Char
  rest : List Char
deriving DecidableEq, Repr

/-- One step of `re.finditer` over the alternation built in
`PhraseTokenizer.__init__` (tokenizer.py lines 99-110).  The alternatives are
tried in specification order (BEGIN, END, ASSIGN, MACRO, NEWLINE, SPACE,
STRING_DELIMITER, STRING_ESCAPE, OTHER); SPACE (` +`) and OTHER
(`[^<>= \\"\n]+`) match greedily.  Every character is matched by some
alternative, so the match is total on nonempty input. -/
def scanToken (keywords : List String) (c : Char) (rest : List Char) : RegexMatch :=
  if c = '<' then ⟨"BEGIN", [c], rest⟩
  else if c = '>' then ⟨"END", [c], rest⟩
  else if c = '=' then ⟨"ASSIGN", [c], rest⟩
  else
    match findKeyword keywords (c :: rest) with
    | some k => ⟨"MACRO", k.data, (c :: rest).drop k.data.length⟩
    | none =>
      if c = '\n' then ⟨"NEWLINE", [c], rest⟩
      else if c = ' ' then
        ⟨"SPACE", c :: rest.takeWhile (fun x => x == ' '), rest.dropWhile (fun x => x == ' ')⟩
      else if c = '"' then ⟨"STRING_DELIMITER", [c], rest⟩
      else if c = '\\' then ⟨"STRING_ESCAPE", [c], rest⟩
      else
        ⟨"OTHER", c :: rest.takeWhile (fun x => !(isSpecialChar x)),
          rest.dropWhile (fun x => !(isSpecialChar x))⟩

/-- `AbstractTokenizer.tokenize` (tokenizer.py lines 71-83), with explicit
fuel for the recursion.  `pos` is the absolute offset, `ln` the current
1-based line number, `ls` the offset just past the most recent NEWLINE match
(`line_start`).  Each match consumes at least one character, so fuel
`s.length` always suffices. -/
def tokenizeFuel (keywords : List String) : Nat → List Char → Nat → Nat → Nat → List Token
  | 0, _, _, _, _ => []
  | _ + 1, [], _, _, _ => []
  | fuel + 1, c :: rest, pos, ln, ls =>
    let m := scanToken keywords c rest
    if m.kind = "NEWLINE" then
      Token.mk m.kind m.value ln (pos - ls) ::
        tokenizeFuel keywords fuel m.rest (pos + m.value.length) (ln + 1) (pos + m.value.length)
    else
      Token.mk m.kind m.value ln (pos - ls) ::
        tokenizeFuel keywords fuel m.rest (pos + m.value.length) ln ls

/-- The token stream of `PhraseTokenizer` over an input, starting at offset 0,
line 1, line origin 0 (tokenizer.py lines 71-83). -/
def tokenize (keywords : List String) (s : List Char) : List Token :=
  tokenizeFuel keywords s.length s 0 1 0

/-- The Python exceptions that can escape the parser.  `next()` on an
exhausted generator raises `StopIteration` (PEP 479 resurfaces it as a
`RuntimeError` when it crosses a generator frame); CPython raises
`RuntimeError: deque mutated during iteration` when a deque changes while
being iterated; `popleft()` on an empty deque raises `IndexError`.
`outOfFuel` is a modelling artifact that is unreachable with the fuel used
below. -/
inductive PyError where
  | stopIteration
  | dequeMutated
  | indexError
  | outOfFuel
deriving DecidableEq, Repr

/-- The mutable state of a `PhraseParser` (parser.py lines 67-70): the
not-yet-pulled remainder of the lazy token generator `self.tokens`, and the
lookahead deque `self.token_queue` (head of the list = left end of the
deque). -/
structure ParserState where
  tokens : List Token
  queue : List Token
deriving DecidableEq, Repr

/-- The parse results.  `stringSection parts` is `StringSection(parts)`
(parser.py lines 39-44); `macroSection` mirrors the `MacroSection` class
(lines 47-58, never constructed by `parse`); `generatorObject` is the raw,
unevaluated generator produced by `self._collect_string_parts()` and emitted
verbatim by the plain `yield` on parser.py line 119. -/
inductive PSection where
  | stringSection (parts : List (List Char))
  | macroSection (keyword : List Char) (parameters : List (List Char × List Char))
  | generatorObject
deriving DecidableEq, Repr

/-- A string segment renders as the concatenation of its parts
(`StringSection.collect`, parser.py lines 43-44). -/
def isMacroSection : PSection → Bool
  | PSection.macroSection _ _ => true
  | _ => false

/-- `PhraseParser._request_next` (parser.py lines 174-178): pull one token
from the generator and append it to the deque's tail.  The `except` clause
names `GeneratorExit`, which `next()` never raises; exhaustion raises
`StopIteration`, which therefore escapes. -/
def requestNext (st : ParserState) : Except PyError ParserState :=
  match st.tokens with
  | [] => Except.error PyError.stopIteration
  | t :: ts => Except.ok ⟨ts, st.queue ++ [t]⟩

/-- `PhraseParser._collect_string_parts` (parser.py lines 85-98), as consumed
by the `yield from` on line 83.  The `for` loop iterates `self.token_queue`
while mutating it: after the first loop body runs (`popleft` plus the append
performed by `_request_next`), the next call to the deque iterator raises
`RuntimeError: deque mutated during iteration`; if the generator is already
exhausted, the `StopIteration` from `_request_next` escapes first.  The loop
therefore only completes when the first token is BEGIN (immediate `break`)
or the deque is empty, both yielding an empty `StringSection`. -/
def collectStringParts (st : ParserState) : Except PyError (PSection × ParserState) :=
  match st.queue with
  | [] => Except.ok (PSection.stringSection [], st)
  | t :: rest =>
    if t.typ = "BEGIN" then
      Except.ok (PSection.stringSection [], st)
    else
      match requestNext ⟨st.tokens, rest⟩ with
      | Except.error e => Except.error e
      | Except.ok _ => Except.error PyError.dequeMutated

/-- `PhraseParser._try_collect_space` (parser.py lines 135-148): pop the
first token; if it is a SPACE, keep it in `collected` and pull a
replacement, otherwise push it back; return whether the deque is still
non-empty.  `popleft` on an empty deque raises `IndexError`. -/
def tryCollectSpace (st : ParserState) (collected : List Token) :
    Except PyError (Bool × ParserState × List Token) :=
  match st.queue with
  | [] => Except.error PyError.indexError
  | item :: rest =>
    if item.typ = "SPACE" then
      match requestNext ⟨st.tokens, rest⟩ with
      | Except.error e => Except.error e
      | Except.ok st2 => Except.ok (!st2.queue.isEmpty, st2, collected ++ [item])
    else
      Except.ok (!(ParserState.mk st.tokens (item :: rest)).queue.isEmpty,
        ParserState.mk st.tokens (item :: rest), collected)

/-- `PhraseParser._try_collect_macro_token` (parser.py lines 150-160): pop
the first token, collect it unconditionally, pull a replacement, and report
whether it was a MACRO token and the deque is still non-empty. -/
def tryCollectMacroToken (st : ParserState) (collected : List Token) :
    Except PyError (Bool × ParserState × List Token) :=
  match st.queue with
  | [] => Except.error PyError.indexError
  | item :: rest =>
    match requestNext ⟨st.tokens, rest⟩ with
    | Except.error e => Except.error e
    | Except.ok st2 =>
      Except.ok ((item.typ == "MACRO") && !st2.queue.isEmpty, st2, collected ++ [item])

/-- Truthiness of the value returned by `_try_collect_macro`: Python treats
both `False` and `None` as falsy in `if self._try_collect_macro(...)`. -/
def pyTruthy : Option Bool → Bool
  | some true => true
  | _ => false

/-- `PhraseParser._try_collect_macro` (parser.py lines 123-133): the two
early `return False` statements are the only `return`s; when both collection
steps report `True`, control falls off the end of the function and Python
returns `None` (modelled as `none`). -/
def tryCollectMacro (st : ParserState) (collected : List Token) :
    Except PyError (Option Bool × ParserState × List Token) :=
  match tryCollectSpace st collected with
  | Except.error e => Except.error e
  | Except.ok (b1, st1, c1) =>
    if b1 = false then Except.ok (some false, st1, c1)
    else
      match tryCollectMacroToken st1 c1 with
      | Except.error e => Except.error e
      | Except.ok (b2, st2, c2) =>
        if b2 = false then Except.ok (some false, st2, c2)
        else Except.ok (none, st2, c2)

/-- `PhraseParser._collect_macro` (parser.py lines 100-121): pop the BEGIN
token, pull a replacement, and speculate with `_try_collect_macro`.  On a
truthy result the generator body is `pass`, so nothing is yielded; otherwise
`self.token_queue.extendleft(collected_items)` pushes the collected tokens
back one at a time onto the left end — i.e. in reversed order — and the
plain `yield self._collect_string_parts()` emits the newly created,
unevaluated generator object itself. -/
def collectMacro (st : ParserState) : Except PyError (List PSection × ParserState) :=
  match st.queue with
  | [] => Except.error PyError.indexError
  | b :: rest =>
    match requestNext ⟨st.tokens, rest⟩ with
    | Except.error e => Except.error e
    | Except.ok st1 =>
      match tryCollectMacro st1 [b] with
      | Except.error e => Except.error e
      | Except.ok (flag, st2, collected) =>
        if pyTruthy flag then Except.ok ([], st2)
        else
          Except.ok ([PSection.generatorObject],
            ⟨st2.tokens, collected.reverse ++ st2.queue⟩)

/-- The `while self.token_queue:` loop of `PhraseParser.parse` (parser.py
lines 78-83).  The pair collects the values yielded before the loop either
ends (queue empty, error `none`) or an exception escapes (`some e`).  Every
successful iteration consumes at least one generator token, so fuel
`tokens.length + 1` always suffices and `outOfFuel` is unreachable. -/
def parseLoop : Nat → ParserState → List PSection × Option PyError
  | 0, _ => ([], some PyError.outOfFuel)
  | _ + 1, ⟨_, []⟩ => ([], none)
  | n + 1, ⟨toks, t :: q⟩ =>
    if t.typ = "BEGIN" then
      match collectMacro ⟨toks, t :: q⟩ with
      | Except.error e => ([], some e)
      | Except.ok (secs, st2) =>
        let r := parseLoop n st2
        (secs ++ r.1, r.2)
    else
      match collectStringParts ⟨toks, t :: q⟩ with
      | Except.error e => ([], some e)
      | Except.ok (sec, st2) =>
        let r := parseLoop n st2
        (sec :: r.1, r.2)

/-- `PhraseParser.parse` (parser.py lines 72-83) applied to the token stream
of a phrase: the initial `self.token_queue.append(next(self.tokens))` is
guarded only by `except GeneratorExit`, so an empty stream raises
`StopIteration` immediately. -/
def parse (toks : List Token) : List PSection × Option PyError :=
  match toks with
  | [] => ([], some PyError.stopIteration)
  | t :: ts => parseLoop (ts.length + 1) ⟨ts, [t]⟩

/-- The whole pipeline: tokenize a phrase with the registered macro keywords
and parse the resulting token stream. -/
def parsePhrase (keywords : List String) (s : List Char) : List PSection × Option PyError :=
  parse (tokenize keywords s)

/-! ## Position bookkeeping used to state the positioning claim -/

/-- Number of NEWLINE tokens in a token list. -/
def nlCount : List Token → Nat
  | [] => 0
  | t :: ts => (if t.typ = "NEWLINE" then 1 else 0) + nlCount ts

/-- Total length of the matched text of a token list; applied to the tokens
preceding a token it is that token's absolute start offset. -/
def sumLens : List Token → Nat
  | [] => 0
  | t :: ts => t.value.length + sumLens ts

/-- Offset just past the most recent NEWLINE token of the list, scanning from
absolute offset `pos` with previous origin `ls`. -/
def lineOrigin : Nat → Nat → List Token → Nat
  | _, ls, [] => ls
  | pos, ls, t :: ts =>
    lineOrigin (pos + t.value.length)
      (if t.typ = "NEWLINE" then pos + t.value.length else ls) ts

/-- Strict order on token positions: earlier line, or same line and earlier
column. -/
def posLt (a b : Token) : Prop :=
  a.line < b.line ∨ (a.line = b.line ∧ a.column < b.column)

/-! ## Basic facts about a single regular-expression match -/

theorem isPrefixOf_append_drop :
    ∀ (p s : List Char), p.isPrefixOf s = true → p ++ s.drop p.length = s := by
  intro p
  induction p with
  | nil => intro s _; simp
  | cons a as ih =>
    intro s hp
    cases s with
    | nil => simp [ List.isPrefixOf] at hp
    | cons b bs =>
      simp only [ List.isPrefixOf, Bool.and_eq_true, beq_iff_eq] at hp
      obtain ⟨rfl, hp⟩ := hp
      simpa using ih bs hp

theorem scanToken_value_append (keywords : List String) (c : Char) (rest : List Char) :
    (scanToken keywords c rest).value ++ (scanToken keywords c rest).rest = c :: rest := by
  unfold scanToken
  split
  · rfl
  split
  · rfl
  split
  · rfl
  split
  · rename_i k hk
    have hp := List.find?_some hk
    simp only [Bool.and_eq_true] at hp
    exact isPrefixOf_append_drop k.data (c :: rest) hp.2
  · split
    · rfl
    split
    · simp [ List.takeWhile_append_dropWhile]
    split
    · rfl
    split
    · rfl
    · simp [ List.takeWhile_append_dropWhile]

theorem scanToken_value_ne_nil (keywords : List String) (c : Char) (rest : List Char) :
    (scanToken keywords c rest).value ≠ [] := by
  unfold scanToken
  split
  · simp
  split
  · simp
  split
  · simp
  split
  · rename_i k hk
    have hp := List.find?_some hk
    simp only [Bool.and_eq_true, Bool.not_eq_true'] at hp
    simpa [ List.isEmpty_iff] using hp.1
  · split
    · simp
    split
    · simp
    split
    · simp
    split
    · simp
    · simp

theorem scanToken_rest_le (keywords : List String) (c : Char) (rest : List Char) :
    (scanToken keywords c rest).rest.length ≤ rest.length := by
  have happ := scanToken_value_append keywords c rest
  have hne := scanToken_value_ne_nil keywords c rest
  have hlen : (scanToken keywords c rest).value.length
      + (scanToken keywords c rest).rest.length = rest.length + 1 := by
    have := congrArg List.length happ
    simpa [ List.length_append] using this
  have hpos : 0 < (scanToken keywords c rest).value.length :=
    List.length_pos.mpr hne
  omega

theorem scanToken_macro_keyword (keywords : List String) (c : Char) (rest : List Char)
    (h : (scanToken keywords c rest).kind = "MACRO") :
    ∃ k ∈ keywords, k.data.isPrefixOf (c :: rest) = true := by
  unfold scanToken at h
  split at h
  · simp at h
  split at h
  · simp at h
  split at h
  · simp at h
  split at h
  · rename_i k hk
    have hp := List.find?_some hk
    have hm := List.mem_of_find?_eq_some hk
    simp only [Bool.and_eq_true] at hp
    exact ⟨k, hm, hp.2⟩
  · split at h
    · simp at h
    split at h
    · simp at h
    split at h
    · simp at h
    split at h
    · simp at h
    · simp at h


/-! ## Tokenizer theorems -/

theorem tokenizeFuel_lossless (keywords : List String) :
    ∀ (fuel : Nat) (s : List Char) (pos ln ls : Nat), s.length ≤ fuel →
      (tokenizeFuel keywords fuel s pos ln ls).foldr (fun t acc => t.value ++ acc) [] = s := by
  intro fuel
  induction fuel with
  | zero =>
    intro s pos ln ls h
    have hs : s = [] := List.length_eq_zero.mp (Nat.le_zero.mp h)
    subst hs
    simp [tokenizeFuel]
  | succ n ih =>
    intro s pos ln ls h
    cases s with
    | nil => simp [tokenizeFuel]
    | cons c rest =>
      have hle : (scanToken keywords c rest).rest.length ≤ n := by
        have h1 := scanToken_rest_le keywords c rest
        simp only [List.length_cons, Nat.succ_le_succ_iff] at h
        omega
      have happ := scanToken_value_append keywords c rest
      by_cases hk : (scanToken keywords c rest).kind = "NEWLINE"
      · simp only [tokenizeFuel, hk, if_true, List.foldr_cons]
        rw [ih _ _ _ _ hle]
        exact happ
      · simp only [tokenizeFuel, hk, if_false, List.foldr_cons]
        rw [ih _ _ _ _ hle]
        exact happ

theorem tokenizeFuel_line_col (keywords : List String) :
    ∀ (fuel : Nat) (s : List Char) (pos ln ls : Nat) (i : Nat) (t : Token),
      (tokenizeFuel keywords fuel s pos ln ls)[i]? = some t →
      t.line = ln + nlCount ((tokenizeFuel keywords fuel s pos ln ls).take i) ∧
      t.column = (pos + sumLens ((tokenizeFuel keywords fuel s pos ln ls).take i))
          - lineOrigin pos ls ((tokenizeFuel keywords fuel s pos ln ls).take i) := by
  intro fuel
  induction fuel with
  | zero =>
    intro s pos ln ls i t h
    simp [tokenizeFuel] at h
  | succ n ih =>
    intro s pos ln ls i t h
    cases s with
    | nil => simp [tokenizeFuel] at h
    | cons c rest =>
      by_cases hk : (scanToken keywords c rest).kind = "NEWLINE"
      · simp only [tokenizeFuel, hk, if_true] at h ⊢
        cases i with
        | zero =>
          simp only [List.getElem?_cons_zero, Option.some_inj] at h
          subst h
          simp [nlCount, sumLens, lineOrigin]
        | succ j =>
          simp only [List.getElem?_cons_succ] at h
          have hrec := ih _ _ _ _ j t h
          simp only [List.take_succ_cons, nlCount, sumLens, lineOrigin]
          simp only [eq_self_iff_true, if_true, ite_true]
          have h1 := hrec.1
          have h2 := hrec.2
          exact ⟨by omega, by omega⟩
      · simp only [tokenizeFuel, hk, if_false] at h ⊢
        cases i with
        | zero =>
          simp only [List.getElem?_cons_zero, Option.some_inj] at h
          subst h
          simp [nlCount, sumLens, lineOrigin]
        | succ j =>
          simp only [List.getElem?_cons_succ] at h
          have hrec := ih _ _ _ _ j t h
          simp only [List.take_succ_cons, nlCount, sumLens, lineOrigin]
          simp only [if_neg hk]
          have h1 := hrec.1
          have h2 := hrec.2
          exact ⟨by omega, by omega⟩

theorem tokenizeFuel_lower (keywords : List String) :
    ∀ (fuel : Nat) (s : List Char) (pos ln ls : Nat),
      ∀ t ∈ tokenizeFuel keywords fuel s pos ln ls,
        ln < t.line ∨ (ln = t.line ∧ pos - ls ≤ t.column) := by
  intro fuel
  induction fuel with
  | zero => intro s pos ln ls t ht; simp [tokenizeFuel] at ht
  | succ n ih =>
    intro s pos ln ls t ht
    cases s with
    | nil => simp [tokenizeFuel] at ht
    | cons c rest =>
      by_cases hk : (scanToken keywords c rest).kind = "NEWLINE"
      · simp only [tokenizeFuel, hk, if_true, List.mem_cons] at ht
        rcases ht with rfl | ht
        · exact Or.inr ⟨rfl, le_refl _⟩
        · rcases ih _ _ _ _ t ht with h1 | ⟨h1, _⟩
          · exact Or.inl (by omega)
          · exact Or.inl (by omega)
      · simp only [tokenizeFuel, hk, if_false, List.mem_cons] at ht
        rcases ht with rfl | ht
        · exact Or.inr ⟨rfl, le_refl _⟩
        · rcases ih _ _ _ _ t ht with h1 | ⟨h1, h2⟩
          · exact Or.inl h1
          · exact Or.inr ⟨h1, by omega⟩

theorem tokenizeFuel_pairwise (keywords : List String) :
    ∀ (fuel : Nat) (s : List Char) (pos ln ls : Nat), ls ≤ pos →
      List.Pairwise posLt (tokenizeFuel keywords fuel s pos ln ls) := by
  intro fuel
  induction fuel with
  | zero => intro s pos ln ls _; simp [tokenizeFuel]
  | succ n ih =>
    intro s pos ln ls hls
    cases s with
    | nil => simp [tokenizeFuel]
    | cons c rest =>
      have hlen : 0 < (scanToken keywords c rest).value.length :=
        List.length_pos.mpr (scanToken_value_ne_nil keywords c rest)
      by_cases hk : (scanToken keywords c rest).kind = "NEWLINE"
      · simp only [tokenizeFuel, hk, if_true, List.pairwise_cons]
        constructor
        · intro b hb
          rcases tokenizeFuel_lower keywords n _ _ _ _ b hb with h1 | ⟨h1, _⟩
          · exact Or.inl (by simp only []; omega)
          · exact Or.inl (by simp only []; omega)
        · exact ih _ _ _ _ (le_refl _)
      · simp only [tokenizeFuel, hk, if_false, List.pairwise_cons]
        constructor
        · intro b hb
          rcases tokenizeFuel_lower keywords n _ _ _ _ b hb with h1 | ⟨h1, h2⟩
          · exact Or.inl h1
          · exact Or.inr ⟨h1, by simp only []; omega⟩
        · exact ih _ _ _ _ (by omega)

theorem tokenizeFuel_macro_free (keywords : List String) :
    ∀ (fuel : Nat) (s : List Char) (pos ln ls : Nat),
      (∀ k ∈ keywords, ¬ (k.data <:+: s)) →
      ∀ t ∈ tokenizeFuel keywords fuel s pos ln ls, t.typ ≠ "MACRO" := by
  intro fuel
  induction fuel with
  | zero => intro s pos ln ls _ t ht; simp [tokenizeFuel] at ht
  | succ n ih =>
    intro s pos ln ls h t ht
    cases s with
    | nil => simp [tokenizeFuel] at ht
    | cons c rest =>
      have hhead : (scanToken keywords c rest).kind ≠ "MACRO" := by
        intro hmac
        obtain ⟨k, hkmem, hkpre⟩ := scanToken_macro_keyword keywords c rest hmac
        exact h k hkmem ⟨[], (c :: rest).drop k.data.length, by
          simpa using isPrefixOf_append_drop k.data (c :: rest) hkpre⟩
      have htail : ∀ k ∈ keywords, ¬ (k.data <:+: (scanToken keywords c rest).rest) := by
        intro k hkmem hkinf
        obtain ⟨u, v, huv⟩ := hkinf
        refine h k hkmem ⟨(scanToken keywords c rest).value ++ u, v, ?_⟩
        rw [List.append_assoc] at huv
        rw [List.append_assoc, List.append_assoc, huv]
        exact scanToken_value_append keywords c rest
      by_cases hk : (scanToken keywords c rest).kind = "NEWLINE"
      · simp only [tokenizeFuel, hk, if_true, List.mem_cons] at ht
        rcases ht with rfl | ht
        · simp
        · exact ih _ _ _ _ htail t ht
      · simp only [tokenizeFuel, hk, if_false, List.mem_cons] at ht
        rcases ht with rfl | ht
        · simpa using hhead
        · exact ih _ _ _ _ htail t ht

/-! ## Parser lemmas -/

theorem tryCollectMacro_never_true (st : ParserState) (c0 : List Token)
    (r : Option Bool) (st2 : ParserState) (c2 : List Token)
    (h : tryCollectMacro st c0 = Except.ok (r, st2, c2)) : pyTruthy r = false := by
  unfold tryCollectMacro at h
  split at h
  · exact absurd h (by simp)
  · split at h
    · simp only [Except.ok.injEq, Prod.mk.injEq] at h
      obtain ⟨rfl, -, -⟩ := h
      rfl
    · split at h
      · exact absurd h (by simp)
      · split at h
        · simp only [Except.ok.injEq, Prod.mk.injEq] at h
          obtain ⟨rfl, -, -⟩ := h
          rfl
        · simp only [Except.ok.injEq, Prod.mk.injEq] at h
          obtain ⟨rfl, -, -⟩ := h
          rfl

/-! ## Claim theorems -/

/-- C2: tokenizer losslessness — concatenating, in production order, the
matched text of every token the tokenizer produces over any input
reconstructs the input exactly: no gaps, no overlaps, no dropped or
duplicated characters. -/
theorem tokenize_lossless (keywords : List String) (s : List Char) :
    (tokenize keywords s).foldr (fun t acc => t.value ++ acc) [] = s :=
  tokenizeFuel_lossless keywords s.length s 0 1 0 (le_refl _)

/-- C7: every token produced by the tokenizer carries a 1-based line number
equal to one plus the number of NEWLINE tokens produced strictly before it,
and a 0-based column equal to its absolute start offset (the total length of
the values produced before it) minus the offset just past the most recently
produced NEWLINE token (minus zero on the first line); and tokens are
produced in strictly increasing position order. -/
theorem tokenize_positions (keywords : List String) (s : List Char)
    (i j : Nat) (hi : i < (tokenize keywords s).length)
    (hj : j < (tokenize keywords s).length) :
    ((tokenize keywords s).get ⟨i, hi⟩).line
        = 1 + nlCount ((tokenize keywords s).take i) ∧
    ((tokenize keywords s).get ⟨i, hi⟩).column
        = sumLens ((tokenize keywords s).take i)
            - lineOrigin 0 0 ((tokenize keywords s).take i) ∧
    (i < j → posLt ((tokenize keywords s).get ⟨i, hi⟩)
        ((tokenize keywords s).get ⟨j, hj⟩)) := by
  have hopt : (tokenize keywords s)[i]? = some ((tokenize keywords s).get ⟨i, hi⟩) := by
    simp [List.getElem?_eq_getElem, hi]
  have hlc := tokenizeFuel_line_col keywords s.length s 0 1 0 i _ hopt
  refine ⟨hlc.1, by simpa using hlc.2, ?_⟩
  intro hij
  have hpw := tokenizeFuel_pairwise keywords s.length s 0 1 0 (le_refl _)
  exact List.pairwise_iff_get.mp hpw ⟨i, hi⟩ ⟨j, hj⟩ hij

/-- Witness for C7: keywords `["date"]`, input `"a\nb"` (tokens OTHER `"a"`,
NEWLINE, OTHER `"b"`), at token indices 1 and 2. -/
theorem tokenize_positions_witness :
    ((tokenize ["date"] ("a\nb".data)).get ⟨1, by decide⟩).line
        = 1 + nlCount ((tokenize ["date"] ("a\nb".data)).take 1) ∧
    ((tokenize ["date"] ("a\nb".data)).get ⟨1, by decide⟩).column
        = sumLens ((tokenize ["date"] ("a\nb".data)).take 1)
            - lineOrigin 0 0 ((tokenize ["date"] ("a\nb".data)).take 1) ∧
    (1 < 2 → posLt ((tokenize ["date"] ("a\nb".data)).get ⟨1, by decide⟩)
        ((tokenize ["date"] ("a\nb".data)).get ⟨2, by decide⟩)) :=
  tokenize_positions ["date"] ("a\nb".data) 1 2 (by decide) (by decide)

/-- C9: keyword matching has no word boundary — with registered keyword
`"date"`, input `"dates"` tokenizes as MACRO `"date"` followed by OTHER
`"s"` (the MACRO alternative is tried before the greedy OTHER catch-all),
while `"updates"`, where the keyword is preceded by ordinary characters in
the same run, is absorbed into a single OTHER token with no MACRO. -/
theorem keyword_no_word_boundary :
    tokenize ["date"] ("dates".data)
        = [Token.mk "MACRO" ("date".data) 1 0, Token.mk "OTHER" ("s".data) 1 4] ∧
    tokenize ["date"] ("updates".data) = [Token.mk "OTHER" ("updates".data) 1 0] := by
  decide

/-- C8 counterexample: the claim's token-kind restriction fails — the
rendered value `"<script>"` of the literal fallback segment that the design
prescribes for input `"<script>"` contains no registered keyword (registry
`["date"]`), yet re-tokenizing it yields BEGIN and END tokens, not only
OTHER/SPACE/NEWLINE tokens. -/
theorem retokenize_kinds_counterexample :
    ¬ (∀ t ∈ tokenize ["date"] ("<script>".data),
        t.typ = "OTHER" ∨ t.typ = "SPACE" ∨ t.typ = "NEWLINE") := by
  decide

/-- C8 (amended): tokenizing a string in which no registered macro keyword
occurs yields no MACRO token, and macro recognition can never succeed in the
implemented parser (the speculation `_try_collect_macro` never reports
success on any input), so such literal text can never be re-interpreted as a
macro; the produced token kinds are however not limited to
OTHER/SPACE/NEWLINE, because fallback literal text may contain the special
characters. -/
theorem retokenize_macro_free (keywords : List String) (s : List Char)
    (h : ∀ k ∈ keywords, ¬ (k.data <:+: s)) :
    (∀ t ∈ tokenize keywords s, t.typ ≠ "MACRO") ∧
    (∀ (st : ParserState) (c0 : List Token) (r : Option Bool) (st2 : ParserState)
      (c2 : List Token),
      tryCollectMacro st c0 = Except.ok (r, st2, c2) → pyTruthy r = false) :=
  ⟨tokenizeFuel_macro_free keywords s.length s 0 1 0 h,
   fun st c0 r st2 c2 hok => tryCollectMacro_never_true st c0 r st2 c2 hok⟩

/-- Witness for C8 at keywords `["date"]` and literal value `"<script>"`. -/
theorem retokenize_macro_free_witness :
    (∀ k ∈ (["date"] : List String), ¬ (k.data <:+: "<script>".data)) ∧
    ((∀ t ∈ tokenize ["date"] ("<script>".data), t.typ ≠ "MACRO") ∧
     (∀ (st : ParserState) (c0 : List Token) (r : Option Bool) (st2 : ParserState)
       (c2 : List Token),
       tryCollectMacro st c0 = Except.ok (r, st2, c2) → pyTruthy r = false)) :=
  ⟨by decide, retokenize_macro_free ["date"] ("<script>".data) (by decide)⟩

/-- C1: refuted as stated — parsing does not run to completion: on
`"<script>"` (the fallback-totality example, with `"script"` registered) and
even on the empty input, an uncaught `StopIteration` escapes the pipeline
(`parse` and `_request_next` guard `next()` with `except GeneratorExit`,
which `next()` never raises), so the parse ends in an error instead of a
sequence of segments. -/
theorem parse_totality_fails :
    (parsePhrase ["script"] ("<script>".data)).2 = some PyError.stopIteration ∧
    (parsePhrase ["script"] ("".data)).2 = some PyError.stopIteration := by
  decide

/-- C3: refuted as stated — when speculation fails after collecting
BEGIN `"<"` and OTHER `"a"` (token stream of `"<a>"`),
`token_queue.extendleft(collected_items)` reinserts the collected tokens one
at a time at the head, i.e. in reversed relative order: the buffer becomes
OTHER, BEGIN, END instead of the original BEGIN, OTHER, END, so the
subsequent literal-text collection does not see the original token sequence
starting with BEGIN. -/
theorem pushback_reversed :
    collectMacro ⟨[Token.mk "OTHER" ("a".data) 1 1, Token.mk "END" (">".data) 1 2],
        [Token.mk "BEGIN" ("<".data) 1 0]⟩
      = Except.ok ([PSection.generatorObject],
          ⟨[], [Token.mk "OTHER" ("a".data) 1 1, Token.mk "BEGIN" ("<".data) 1 0,
            Token.mk "END" (">".data) 1 2]⟩) := by
  decide

/-- C4: refuted as stated — on `'Hello <date format="%Y"> World'` with
registered keyword `"date"`, the parser yields no segment at all: the very
first literal collection mutates the deque it is iterating and raises
`RuntimeError: deque mutated during iteration`, instead of producing the
claimed literal/macro/literal segment triple. -/
theorem parse_well_formed_example_fails :
    parsePhrase ["date"] ("Hello <date format=\"%Y\"> World".data)
        = ([], some PyError.dequeMutated) := by
  decide

/-- C5: refuted as stated — on `"<script>"` (with `"script"` registered) the
parser emits the raw generator object created by the plain
`yield self._collect_string_parts()` and then raises an uncaught
`StopIteration`; it never emits the claimed literal segment `"<script>"`
(nor any macro segment), and the required-parameter validation
`_build_macro_parameters` is never invoked. -/
theorem parse_required_param_fails :
    parsePhrase ["script"] ("<script>".data)
        = ([PSection.generatorObject], some PyError.stopIteration) := by
  decide

/-- C6: the append-to-tail half of the claim holds while tokens remain, but
exhaustion is not a silent no-op: `next()` on the exhausted generator raises
`StopIteration`, which the `except GeneratorExit` clause of `_request_next`
does not catch, so the exception propagates to the caller. -/
theorem request_next_exhaustion_raises :
    requestNext ⟨[], [Token.mk "OTHER" ("a".data) 1 0]⟩
        = Except.error PyError.stopIteration ∧
    requestNext ⟨[Token.mk "OTHER" ("b".data) 1 1], [Token.mk "OTHER" ("a".data) 1 0]⟩
        = Except.ok ⟨[], [Token.mk "OTHER" ("a".data) 1 0, Token.mk "OTHER" ("b".data) 1 1]⟩ := by
  decide

/-- C10: `_try_collect_space` is state-preserving on mismatch — for a
non-empty token buffer whose first token is not a SPACE token, the popped
token is pushed back so the buffer is exactly as before, the collected-items
log is unchanged, and the returned boolean is the non-emptiness of the
(unchanged, hence non-empty) buffer, i.e. `true`, carrying no information
about whether a space was collected. -/
theorem try_collect_space_frame (st : ParserState) (collected : List Token)
    (t : Token) (ts : List Token) (hq : st.queue = t :: ts) (ht : t.typ ≠ "SPACE") :
    tryCollectSpace st collected = Except.ok (true, st, collected) := by
  obtain ⟨tks, q⟩ := st
  simp only at hq
  subst hq
  simp [tryCollectSpace, ht]

/-- Witness for C10 at a one-token buffer holding OTHER `"a"`. -/
theorem try_collect_space_frame_witness :
    tryCollectSpace ⟨[], [Token.mk "OTHER" ("a".data) 1 0]⟩ []
        = Except.ok (true, ⟨[], [Token.mk "OTHER" ("a".data) 1 0]⟩, []) :=
  try_collect_space_frame ⟨[], [Token.mk "OTHER" ("a".data) 1 0]⟩ []
    (Token.mk "OTHER" ("a".data) 1 0) [] rfl (by decide)

end Autokey
